import Mathlib

/-!
# Verification of the telegram-gallery synchronization / mutation engine

Shallow embedding of the client-side gallery engine
(`src/components/Gallery.vue`) and the server-side pagination and JWT
helpers (`server/index.js`).  Pure Lean functions mirror the JavaScript
source; stateful component code is modelled by explicit state passing on
`GalleryState`.  Network requests are modelled by passing the (already
received) response as an argument; the external browser/crypto
primitives used by the JWT helpers are modelled as an explicit record of
injected functions.
-/

/-- A gallery entry as the client holds it.  `id` is the server-assigned
identity (ObjectId, modelled as a number; the server ordering `$lt` on
ObjectIds corresponds to `<`), `fileId` is `telegram.file_id`, and
`src` / `loading` are the client-only display fields (absent on raw
server items, i.e. `none` / `false`). -/
structure Entry where
  id : Nat
  prompt : String
  fileId : Option String
  src : Option String
  loading : Bool
deriving Repr, DecidableEq

/-- A normalized page as produced by `fetchGalleryPage`. -/
structure Page where
  items : List Entry
  hasMore : Bool
  nextCursor : Option Nat
deriving Repr, DecidableEq

/-- The reactive state of the Gallery component: the in-memory entry
list, the pagination cursor / flags, the pending-deletion set, the batch
selection, and the two persistent localStorage caches (`listCache` is
the `gallery_list_cache` snapshot, `imageCache` the
`gallery_image_cache` file-id → url map; an empty `listCache` plays the
role of an absent snapshot, matching the `cachedList &&
cachedList.length > 0` check in the source). -/
structure GalleryState where
  entries : List Entry
  loading : Bool
  error : String
  selectedIndex : Int
  loadingMore : Bool
  hasMore : Bool
  paginationCursor : Option Nat
  batchMode : Bool
  selectedEntryIds : List Nat
  pendingDeleteIds : List Nat
  listCache : List Entry
  imageCache : List (String × String)
deriving Repr, DecidableEq

/-- `PAGE_SIZE` from Gallery.vue. -/
def PAGE_SIZE : Nat := 60

/-- JavaScript truthiness of an optional string (`null`/`undefined` and
`""` are falsy). -/
def optStrTruthy : Option String → Bool
  | none => false
  | some s => s ≠ ""

/-- JavaScript truthiness of the pagination cursor
(`!paginationCursor.value`): absent or numerically-zero ids are falsy. -/
def cursorFalsy : Option Nat → Bool
  | none => true
  | some c => c = 0

/-- Lookup in the image cache object (`imageCache[fileId]`, returning
the cached `url`). -/
def cacheLookup : List (String × String) → String → Option String
  | [], _ => none
  | (k, v) :: rest, key => if k = key then some v else cacheLookup rest key

/-- `cache[fileId] = { url }` — set a key of the image-cache object. -/
def cacheSet : List (String × String) → String → String → List (String × String)
  | [], key, url => [(key, url)]
  | (k, v) :: rest, key, url =>
      if k = key then (k, url) :: rest else (k, v) :: cacheSet rest key url

/-- `delete imageCache[fileId]` — remove a key of the image-cache
object. -/
def cacheDelete : List (String × String) → String → List (String × String)
  | [], _ => []
  | (k, v) :: rest, key =>
      if k = key then rest else (k, v) :: cacheDelete rest key

/-- `syncSelectionWithEntries` (Gallery.vue): keep only the selected ids
that are still present in the in-memory list. -/
def syncSelectionWithEntries (s : GalleryState) : GalleryState :=
  { s with selectedEntryIds :=
      s.selectedEntryIds.filter (fun id => s.entries.any (fun e => e.id = id)) }

/-- `buildEntryWithCache` (Gallery.vue): combine a fetched server item
with the previously displayed entry (if any) and the image cache,
computing the `src` / `loading` display fields.  The two object spreads
`{...existingEntry, ...entry, src: …, loading: …}` make the server
item's identity fields win and the explicit `src`/`loading` values
override both. -/
def buildEntryWithCache (entry : Entry) (existingEntry : Option Entry)
    (imageCache : List (String × String)) (forceImageRefresh : Bool) : Entry :=
  let fileId := entry.fileId
  -- `fileId && imageCache[fileId]` (a truthy file id is required)
  let cachedData : Option String :=
    match fileId with
    | some fid => if fid ≠ "" then cacheLookup imageCache fid else none
    | none => none
  -- `Boolean(existingEntry?.src) && !forceImageRefresh`
  let keepExistingSrc :=
    (match existingEntry with
     | some ex => optStrTruthy ex.src
     | none => false) && !forceImageRefresh
  let loadingState : Bool :=
    if forceImageRefresh then optStrTruthy fileId
    else if keepExistingSrc then false
    else if (match existingEntry with
             | some ex => ex.loading
             | none => false) && cachedData.isNone then true
    else optStrTruthy fileId && cachedData.isNone
  { id := entry.id
    prompt := entry.prompt
    fileId := entry.fileId
    src :=
      if keepExistingSrc then
        (match existingEntry with
         | some ex => ex.src
         | none => none)
      else if cachedData.isSome && !forceImageRefresh then cachedData
      else none
    loading := loadingState }

/-- The display URL the client assigns for a file id
(`/api/fileurl?file_id=...`). -/
def fileUrlFor (fid : String) : String :=
  "/api/fileurl?file_id=" ++ fid

/-- `loadEntryImage` (Gallery.vue), per entry: skip entries with no file
id or with an already-resolved `src`; otherwise set the display URL,
clear the loading flag and write the url into the persistent image
cache (`setImageCache`).  The function body is synchronous, so the
`pendingImageLoads` re-entrancy set has no observable effect here. -/
def loadEntryImage (e : Entry) (imageCache : List (String × String)) :
    Entry × List (String × String) :=
  match e.fileId with
  | none => (e, imageCache)
  | some fid =>
      if optStrTruthy e.src && !e.loading then (e, imageCache)
      else
        ({ e with src := some (fileUrlFor fid), loading := false },
         cacheSet imageCache fid (fileUrlFor fid))

/-- `queueImageLoads` (Gallery.vue): run `loadEntryImage` over a list of
entries, threading the persistent image cache (the per-entry guards in
`queueImageLoads` repeat the guards of `loadEntryImage`). -/
def queueImageLoads : List Entry → List (String × String) →
    List Entry × List (String × String)
  | [], imageCache => ([], imageCache)
  | e :: rest, imageCache =>
      let (e', c') := loadEntryImage e imageCache
      let (rest', c'') := queueImageLoads rest c'
      (e' :: rest', c'')

/-- `entries.value.splice(index, 1)` — remove the element at an index. -/
def removeAt : List Entry → Nat → List Entry
  | [], _ => []
  | _ :: xs, 0 => xs
  | x :: xs, n + 1 => x :: removeAt xs n

/-- `entries.value.splice(insertIndex, 0, entry)` — insert an element at
an index (appending when the index exceeds the length). -/
def insertAt : Nat → Entry → List Entry → List Entry
  | 0, a, l => a :: l
  | _ + 1, a, [] => [a]
  | n + 1, a, x :: xs => x :: insertAt n a xs

/-- `entries.value.findIndex((entry) => entry.id === entryId)`, as an
option instead of `-1`. -/
def findIndexById : List Entry → Nat → Option Nat
  | [], _ => none
  | e :: rest, x =>
      if e.id = x then some 0
      else (findIndexById rest x).map (· + 1)

/-- `pendingDeleteIds.add(entryId)` — set insertion. -/
def pendingAdd (l : List Nat) (x : Nat) : List Nat :=
  if l.contains x then l else x :: l

/-- `hideEntryOptimistically` (Gallery.vue): remove the entry with the
given id from the in-memory list (no-op when absent), fix up
`selectedIndex`, add the id to the pending-deletion set and
resynchronize the selection.  Returns the updated state and the
`{ entry, index }` snapshot (or `none`). -/
def hideEntryOptimistically (s : GalleryState) (entryId : Nat) :
    GalleryState × Option (Entry × Nat) :=
  match findIndexById s.entries entryId with
  | none => (s, none)
  | some i =>
      match s.entries[i]? with
      | none => (s, none)  -- unreachable: findIndexById yields in-range indices
      | some entry =>
          let entries' := removeAt s.entries i
          let sel' : Int :=
            if s.selectedIndex = (i : Int) then -1
            else if s.selectedIndex > (i : Int) then s.selectedIndex - 1
            else s.selectedIndex
          let s' := syncSelectionWithEntries
            { s with entries := entries', selectedIndex := sel',
                     pendingDeleteIds := pendingAdd s.pendingDeleteIds entryId }
          (s', some (entry, i))

/-- `restoreHiddenEntry` (Gallery.vue): drop the id from the
pending-deletion set; unless an entry with that id is already visible,
re-insert the snapshot entry at `min(snapshot.index,
entries.value.length)`, fix up `selectedIndex` and resynchronize the
selection. -/
def restoreHiddenEntry (s : GalleryState) (snapshot : Option (Entry × Nat)) :
    GalleryState :=
  match snapshot with
  | none => s
  | some (entry, index) =>
      let s₁ := { s with pendingDeleteIds := s.pendingDeleteIds.erase entry.id }
      if s₁.entries.any (fun e => e.id = entry.id) then s₁
      else
        let insertIndex := min index s₁.entries.length
        let sel' : Int :=
          if s₁.selectedIndex ≥ (insertIndex : Int) then s₁.selectedIndex + 1
          else s₁.selectedIndex
        syncSelectionWithEntries
          { s₁ with entries := insertAt insertIndex entry s₁.entries,
                    selectedIndex := sel' }

/-- `removeEntryFromLocalCache` (Gallery.vue): drop the entry from the
persistent top-page snapshot (rewritten through `setGalleryListCache`,
which keeps at most `PAGE_SIZE` items) and delete its file id from the
persistent image cache. -/
def removeEntryFromLocalCache (s : GalleryState) (entry : Entry) : GalleryState :=
  let listCache' := (s.listCache.filter (fun item => item.id ≠ entry.id)).take PAGE_SIZE
  let imageCache' :=
    match entry.fileId with
    | some fid => if fid ≠ "" then cacheDelete s.imageCache fid else s.imageCache
    | none => s.imageCache
  { s with listCache := listCache', imageCache := imageCache' }

/-- `finalizeDeleteSuccess` (Gallery.vue): clear the pending flag, purge
the local caches and resynchronize the selection. -/
def finalizeDeleteSuccess (s : GalleryState) (entry : Entry) : GalleryState :=
  syncSelectionWithEntries
    (removeEntryFromLocalCache
      { s with pendingDeleteIds := s.pendingDeleteIds.erase entry.id } entry)

/-- Outcome of the server's DELETE handler for one id
(`handleGallery`, DELETE branch): `ok` (HTTP 200), `notFound`
(HTTP 404) or `serverError` (HTTP 500). -/
inductive DeleteResult where
  | ok
  | notFound
  | serverError
deriving Repr, DecidableEq

/-- `requestDeleteById` (Gallery.vue) resolves normally exactly when the
response status is OK; a 404 (Not found) or 500 response makes it throw. -/
def requestSucceeds : DeleteResult → Bool
  | .ok => true
  | .notFound => false
  | .serverError => false

/-- `performDelete` (Gallery.vue) with the delete request's success
already decided: optimistic hide, then `finalizeDeleteSuccess` on
success or `restoreHiddenEntry` on failure.  Returns the new state and
`some true` / `some false` for the reported outcome (`none` when the
`!entry || !entry.id` guard fires). -/
def performDelete (s : GalleryState) (entry : Entry) (succeeded : Bool) :
    GalleryState × Option Bool :=
  if entry.id = 0 then (s, none)
  else
    let (s₁, snapshot) := hideEntryOptimistically s entry.id
    if succeeded then (finalizeDeleteSuccess s₁ entry, some true)
    else (restoreHiddenEntry s₁ snapshot, some false)

/-- `performDelete` fed with the server's response to the delete
request. -/
def performDeleteResp (s : GalleryState) (entry : Entry) (r : DeleteResult) :
    GalleryState × Option Bool :=
  performDelete s entry (requestSucceeds r)

/-- Lookup matching `new Map(entries.value.map((entry) => [entry.id,
entry]))`: a JS `Map` built from pairs keeps the *last* binding for a
duplicate key, so we search the reversed list. -/
def existingById (entries : List Entry) (id : Nat) : Option Entry :=
  entries.reverse.find? (fun e => e.id = id)

/-- `mergeTopPage` (Gallery.vue): filter the fetched page through the
pending-deletion set, rebuild the display entries (against an empty
image cache when images are force-refreshed), either replace the list
outright or keep the non-matching previous entries as a tail, overwrite
the persistent top-page snapshot with the visible server page, queue
image loads and resynchronize the selection. -/
def mergeTopPage (s : GalleryState) (serverItems : List Entry)
    (forceImageRefresh : Bool) (keepExistingTail : Bool) : GalleryState :=
  let visibleServerList :=
    serverItems.filter (fun e => !s.pendingDeleteIds.contains e.id)
  let imageCache := if forceImageRefresh then [] else s.imageCache
  let topEntries := visibleServerList.map (fun entry =>
    buildEntryWithCache entry (existingById s.entries entry.id) imageCache
      forceImageRefresh)
  let merged :=
    if keepExistingTail then
      let topIds := topEntries.map (·.id)
      topEntries ++ s.entries.filter (fun entry => !topIds.contains entry.id)
    else topEntries
  let (loaded, imageCache') := queueImageLoads merged s.imageCache
  syncSelectionWithEntries
    { s with entries := loaded,
             listCache := visibleServerList.take PAGE_SIZE,
             imageCache := imageCache' }

/-- The stale-while-revalidate paint from the `gallery_list_cache`
snapshot: the first branch of `load` (Gallery.vue) when the refresh is
not a forced list refresh and a non-empty snapshot exists.  The cached
top page is truncated to `PAGE_SIZE`, filtered through the
pending-deletion set, rebuilt (no existing entries are consulted) and
displayed; the loading spinner is turned off.  Note that the selection
is *not* resynchronized here. -/
def paintFromCache (s : GalleryState) (forceImageRefresh : Bool) : GalleryState :=
  let visibleCachedList :=
    (s.listCache.take PAGE_SIZE).filter (fun e => !s.pendingDeleteIds.contains e.id)
  let imageCache := if forceImageRefresh then [] else s.imageCache
  let painted := visibleCachedList.map (fun entry =>
    buildEntryWithCache entry none imageCache forceImageRefresh)
  let (loaded, imageCache') := queueImageLoads painted s.imageCache
  { s with entries := loaded, imageCache := imageCache', loading := false }

/-- `load` (Gallery.vue) with the first-page fetch already resolved
(`fetched` is the normalized `fetchGalleryPage` result, or the thrown
error).  Paints from the cache (or shows the spinner) unless this is a
forced list refresh, merges the fetched top page, and adopts
cursor/hasMore from the response — except that a forced refresh of an
already-populated list keeps them and only adopts the cursor when none
was set yet. -/
def load (s : GalleryState) (forceImageRefresh forceListRefresh : Bool)
    (fetched : Except String Page) : GalleryState :=
  let s₀ := { s with error := "" }
  let hadEntries := !s₀.entries.isEmpty
  let s₁ :=
    if !forceListRefresh then
      if !s₀.listCache.isEmpty then paintFromCache s₀ forceImageRefresh
      else { s₀ with loading := true }
    else if !hadEntries then { s₀ with loading := true }
    else s₀
  match fetched with
  | .error msg => { s₁ with error := msg, loading := false }
  | .ok page =>
      let s₂ := mergeTopPage s₁ page.items forceImageRefresh forceListRefresh
      let s₃ :=
        if !forceListRefresh || !hadEntries then
          { s₂ with paginationCursor := page.nextCursor, hasMore := page.hasMore }
        else if cursorFalsy s₂.paginationCursor then
          { s₂ with paginationCursor := page.nextCursor }
        else s₂
      { s₃ with loading := false }

/-- The `visibleItems.forEach` loop of `loadMore` (Gallery.vue):
walk the fetched items, skip ids already present in `existingIds`,
rebuild the rest and extend `existingIds` as we go — so the result is
also internally duplicate-free. -/
def collectAppended (existingIds : List Nat) (items : List Entry)
    (imageCache : List (String × String)) : List Entry :=
  match items with
  | [] => []
  | entry :: rest =>
      if existingIds.contains entry.id then
        collectAppended existingIds rest imageCache
      else
        buildEntryWithCache entry none imageCache false ::
          collectAppended (entry.id :: existingIds) rest imageCache

/-- The successful-response body of `loadMore` (Gallery.vue): filter
the page through the pending-deletion set, de-duplicate against the
present ids, append only genuinely new entries, and advance
cursor/hasMore from the response. -/
def loadMoreAppend (s : GalleryState) (page : Page) : GalleryState :=
  let visibleItems :=
    page.items.filter (fun entry => !s.pendingDeleteIds.contains entry.id)
  let appendedEntries :=
    collectAppended (s.entries.map (·.id)) visibleItems s.imageCache
  let s₁ :=
    if !appendedEntries.isEmpty then
      let (loadedAppended, imageCache') :=
        queueImageLoads appendedEntries s.imageCache
      syncSelectionWithEntries
        { s with entries := s.entries ++ loadedAppended,
                 imageCache := imageCache' }
    else s
  { s₁ with paginationCursor := page.nextCursor, hasMore := page.hasMore }

/-- `loadMore` (Gallery.vue) with the next-page fetch already resolved:
a no-op when a load is in flight or when `hasMore`/cursor forbid it;
otherwise `loadMoreAppend` on the fetched page (or recording the thrown
error). -/
def loadMore (s : GalleryState) (fetched : Except String Page) : GalleryState :=
  if s.loading || s.loadingMore then s
  else if !s.hasMore || cursorFalsy s.paginationCursor then s
  else
    match fetched with
    | .error msg => { s with error := msg }
    | .ok page => loadMoreAppend s page

/-- The `targetEntries.map((entry) => ({entry, snapshot:
hideEntryOptimistically(entry.id)}))` step of `performBatchDelete`:
hide each target in order, collecting the snapshots. -/
def hideTargets : GalleryState → List Entry →
    GalleryState × List (Entry × Option (Entry × Nat))
  | s, [] => (s, [])
  | s, entry :: rest =>
      let (s₁, snapshot) := hideEntryOptimistically s entry.id
      let (s₂, acc) := hideTargets s₁ rest
      (s₂, (entry, snapshot) :: acc)

/-- The serial `for (const target of targets)` loop of
`performBatchDelete`: each target's delete outcome (given by `ok` on
its id) is finalized or rolled back independently, accumulating the
success/failure counts. -/
def deleteLoop : GalleryState → List (Entry × Option (Entry × Nat)) →
    (Nat → Bool) → GalleryState × Nat × Nat
  | s, [], _ => (s, 0, 0)
  | s, (entry, snapshot) :: rest, ok =>
      if ok entry.id then
        let s₁ := finalizeDeleteSuccess s entry
        let (s₂, sc, fc) := deleteLoop s₁ rest ok
        (s₂, sc + 1, fc)
      else
        let s₁ := restoreHiddenEntry s snapshot
        let (s₂, sc, fc) := deleteLoop s₁ rest ok
        (s₂, sc, fc + 1)

/-- `performBatchDelete` (Gallery.vue), with the user's confirmation and
each delete request's success (by id) decided: collect the selected
entries, hide them all optimistically up front, clear the selection and
leave batch mode, then issue the deletes serially.  Returns the new
state and `some (successCount, failCount)` (`none` when the empty-
selection guard or the confirm dialog stops the operation). -/
def performBatchDelete (s : GalleryState) (confirmed : Bool) (ok : Nat → Bool) :
    GalleryState × Option (Nat × Nat) :=
  let targetEntries :=
    s.entries.filter (fun entry => s.selectedEntryIds.contains entry.id)
  if targetEntries.isEmpty then (s, none)
  else if !confirmed then (s, none)
  else
    let (s₁, targets) := hideTargets s targetEntries
    let s₂ := { s₁ with selectedEntryIds := [], batchMode := false }
    let (s₃, sc, fc) := deleteLoop s₂ targets ok
    (s₃, some (sc, fc))

/-- A stored gallery document as the server query projects it
(`server/index.js`): the ObjectId (as a number) and the timestamp used
by the legacy sort.  The remaining projected fields play no role in the
pagination logic. -/
structure Doc where
  id : Nat
  timestamp : Nat
deriving Repr, DecidableEq

/-- The page shape the paginated GET branch of `handleGallery`
(`server/index.js`) computes before serialization. -/
structure ServerPage where
  items : List Doc
  hasMore : Bool
  nextCursor : Option Nat
deriving Repr, DecidableEq

/-- Insert into a list that is sorted descending by id. -/
def insertByIdDesc (d : Doc) : List Doc → List Doc
  | [] => [d]
  | x :: xs => if x.id ≥ d.id then x :: insertByIdDesc d xs else d :: x :: xs

/-- `.sort({ _id: -1 })` — the collection ordered descending by id. -/
def sortByIdDesc : List Doc → List Doc
  | [] => []
  | d :: ds => insertByIdDesc d (sortByIdDesc ds)

/-- Insert into a list that is sorted descending by timestamp. -/
def insertByTimestampDesc (d : Doc) : List Doc → List Doc
  | [] => [d]
  | x :: xs =>
      if x.timestamp ≥ d.timestamp then x :: insertByTimestampDesc d xs
      else d :: x :: xs

/-- `.sort({ timestamp: -1 })` — the collection ordered descending by
timestamp (legacy branch). -/
def sortByTimestampDesc : List Doc → List Doc
  | [] => []
  | d :: ds => insertByTimestampDesc d (sortByTimestampDesc ds)

/-- The keyset-pagination core of `handleGallery` (`server/index.js`,
GET branch): query the store for ids below the cursor (all ids when the
cursor is absent) in descending id order, fetch `limit + 1` documents
to detect a further page, and emit the page with
`nextCursor = id of the page's last item` exactly when more remain. -/
def fetchPage (store : List Doc) (cursor : Option Nat) (limit : Nat) : ServerPage :=
  let docs :=
    ((sortByIdDesc store).filter (fun d =>
        match cursor with
        | none => true
        | some c => d.id < c)).take (limit + 1)
  let hasMore := docs.length > limit
  let pageDocs := if hasMore then docs.take limit else docs
  let nextCursor := if hasMore then (pageDocs.map (·.id)).getLast? else none
  { items := pageDocs, hasMore := hasMore, nextCursor := nextCursor }

/-- JavaScript's `parseInt(s, 10)`: skip leading whitespace, read an
optional sign and then a maximal digit prefix; `NaN` (here `none`) when
no digit is found. -/
def jsParseInt (s : String) : Option Int :=
  let chars := s.data.dropWhile (fun c => c.isWhitespace)
  let (neg, rest) :=
    match chars with
    | '-' :: cs => (true, cs)
    | '+' :: cs => (false, cs)
    | cs => (false, cs)
  let digits := rest.takeWhile (fun c => c.isDigit)
  if digits.isEmpty then none
  else
    let n : Nat := digits.foldl (fun acc c => acc * 10 + (c.toNat - '0'.toNat)) 0
    some (if neg then -(n : Int) else (n : Int))

/-- JavaScript's `String.prototype.trim()`: strip leading and trailing
whitespace. -/
def jsTrim (s : String) : String :=
  String.mk (((s.data.dropWhile (fun c => c.isWhitespace)).reverse.dropWhile
    (fun c => c.isWhitespace)).reverse)

/-- The effective page limit of the paginated GET branch:
`parseInt(String(limitRaw ?? ''), 10)`, then `max(1, min(·, 200))` when
finite, else the default `60`. -/
def effLimit (limitRaw : Option String) : Nat :=
  match jsParseInt (match limitRaw with | some s => s | none => "") with
  | some n => (max 1 (min n 200)).toNat
  | none => 60

/-- `ObjectId.isValid` on a query-string cursor: a 24-character hex
string. -/
def isValidObjectId (s : String) : Bool :=
  s.length = 24 && s.data.all (fun c => c.isDigit || ('a' ≤ c && c ≤ 'f') || ('A' ≤ c && c ≤ 'F'))

/-- Numeric value of a hex digit. -/
def hexDigitVal (c : Char) : Nat :=
  if c.isDigit then c.toNat - '0'.toNat
  else if 'a' ≤ c && c ≤ 'f' then c.toNat - 'a'.toNat + 10
  else if 'A' ≤ c && c ≤ 'F' then c.toNat - 'A'.toNat + 10
  else 0

/-- A valid 24-hex-digit ObjectId cursor as a number: on equal-length
hex strings the byte-wise ObjectId `$lt` order is the numeric order. -/
def hexToNat (s : String) : Nat :=
  s.data.foldl (fun acc c => acc * 16 + hexDigitVal c) 0

/-- The responses of the GET branch of `handleGallery`. -/
inductive GalleryResp where
  /-- Paginated shape `{ items, hasMore, nextCursor, limit }`. -/
  | paged (page : ServerPage) (limit : Nat)
  /-- Legacy shape: a flat array of at most 200 items by timestamp
  descending. -/
  | legacy (items : List Doc)
deriving Repr, DecidableEq

/-- The GET branch of `handleGallery` (`server/index.js`) after
authentication: read `limit` and `cursor` from the query string, decide
between the paginated and the legacy shape, validate the cursor
(`400 Invalid cursor` when malformed), and run the keyset query.
Errors are `(status, message)` pairs. -/
def handleGalleryGet (store : List Doc) (limitRaw cursorRaw : Option String) :
    Except (Nat × String) GalleryResp :=
  let cursor := (match cursorRaw with | some s => jsTrim s | none => "")
  let wantsPagination := limitRaw.isSome || cursor ≠ ""
  if wantsPagination then
    let limit := effLimit limitRaw
    if cursor ≠ "" && !isValidObjectId cursor then
      .error (400, "Invalid cursor")
    else
      let cursorVal : Option Nat :=
        if cursor ≠ "" then some (hexToNat cursor) else none
      .ok (.paged (fetchPage store cursorVal limit) limit)
  else
    .ok (.legacy ((sortByTimestampDesc store).take 200))

/-- A JSON value (for JWT payloads). -/
inductive Json where
  | null
  | bool (b : Bool)
  | num (n : Int)
  | str (s : String)
deriving Repr, DecidableEq

/-- First binding of a key in a JSON object (`payload.exp` etc.). -/
def getField : List (String × Json) → String → Option Json
  | [], _ => none
  | (k, v) :: rest, key => if k = key then some v else getField rest key

/-- The object spread `{ ...payload, key: value }`: replace the first
binding of `key` in place, or append it. -/
def setField : List (String × Json) → String → Json → List (String × Json)
  | [], key, value => [(key, value)]
  | (k, v) :: rest, key, value =>
      if k = key then (k, value) :: rest
      else (k, v) :: setField rest key value

/-- The external browser primitives `jwtSign`/`jwtVerify`
(`server/index.js`) delegate to: `JSON.stringify`/`JSON.parse` on
objects, `base64UrlEncode` on strings and on byte arrays,
`base64UrlDecode` (with `textDecoder.decode` for the payload), and
HMAC-SHA256 via `crypto.subtle` (whose `verify` accepts a signature
exactly when it equals the HMAC of the input under the key). -/
structure JwtPrims where
  stringifyObj : List (String × Json) → String
  parseObj : String → Option (List (String × Json))
  b64str : String → String
  b64bytes : List Nat → String
  unb64bytes : String → List Nat
  decodeText : List Nat → String
  hmacSha256 : String → String → List Nat

/-- `jwtSign` (`server/index.js`): extend the payload with `iat`/`exp`,
base64url-encode the header and payload JSON, and append the
base64url-encoded HMAC-SHA256 signature of `header.payload`.
`now` is `Math.floor(Date.now() / 1000)`. -/
def jwtSign (X : JwtPrims) (payload : List (String × Json)) (secret : String)
    (expiresInSeconds : Nat) (now : Nat) : String :=
  let fullPayload :=
    setField (setField payload "iat" (Json.num now)) "exp"
      (Json.num (now + expiresInSeconds))
  let headerB64 :=
    X.b64str (X.stringifyObj [("alg", Json.str "HS256"), ("typ", Json.str "JWT")])
  let payloadB64 := X.b64str (X.stringifyObj fullPayload)
  let signingInput := headerB64 ++ "." ++ payloadB64
  signingInput ++ "." ++ X.b64bytes (X.hmacSha256 secret signingInput)

/-- Helper of `jsSplit`: accumulate the current segment (reversed). -/
def jsSplitAux (sep : Char) : List Char → List Char → List String
  | [], acc => [String.mk acc.reverse]
  | c :: rest, acc =>
      if c = sep then String.mk acc.reverse :: jsSplitAux sep rest []
      else jsSplitAux sep rest (c :: acc)

/-- JavaScript's `token.split('.')`: cut the string at every separator
(empty segments preserved, as in JS). -/
def jsSplit (sep : Char) (s : String) : List String :=
  jsSplitAux sep s.data []

/-- `jwtVerify` (`server/index.js`): split the token into three parts,
check the HMAC signature, decode and parse the payload, and reject
tokens whose (truthy, numeric) `exp` lies strictly before `now`.
Errors model the thrown exceptions.  (A non-numeric `exp` is modelled
as not expiring — tokens issued by `jwtSign` always carry a numeric
`exp`.) -/
def jwtVerify (X : JwtPrims) (token : String) (secret : String) (now : Nat) :
    Except String (List (String × Json)) :=
  match jsSplit '.' token with
  | [headerB64, payloadB64, signatureB64] =>
      let signingInput := headerB64 ++ "." ++ payloadB64
      if X.unb64bytes signatureB64 ≠ X.hmacSha256 secret signingInput then
        .error "Invalid signature"
      else
        match X.parseObj (X.decodeText (X.unb64bytes payloadB64)) with
        | none => .error "Invalid payload JSON"
        | some payload =>
            match getField payload "exp" with
            | some (Json.num e) =>
                if e ≠ 0 ∧ e < (now : Int) then .error "Token expired"
                else .ok payload
            | _ => .ok payload
  | _ => .error "Invalid token"

/-! ## Basic identity-preservation lemmas -/

theorem buildEntryWithCache_id (entry : Entry) (ex : Option Entry)
    (cache : List (String × String)) (f : Bool) :
    (buildEntryWithCache entry ex cache f).id = entry.id := rfl

theorem loadEntryImage_id (e : Entry) (cache : List (String × String)) :
    (loadEntryImage e cache).1.id = e.id := by
  unfold loadEntryImage
  cases e.fileId
  · rfl
  · dsimp only
    split <;> rfl

theorem queueImageLoads_map_id (l : List Entry) (cache : List (String × String)) :
    ((queueImageLoads l cache).1).map (·.id) = l.map (·.id) := by
  induction l generalizing cache with
  | nil => rfl
  | cons e rest ih =>
      simp only [queueImageLoads, List.map_cons]
      rw [loadEntryImage_id, ih]

theorem map_id_filter (l : List Entry) (p : Nat → Bool) :
    (l.filter (fun e => p e.id)).map (·.id) = (l.map (·.id)).filter p := by
  induction l with
  | nil => rfl
  | cons e rest ih =>
      by_cases h : p e.id <;> simp [List.filter_cons, h, ih]

theorem mem_map_id {l : List Entry} {x : Nat} :
    x ∈ l.map (·.id) ↔ ∃ e ∈ l, e.id = x := by
  simp [List.mem_map]

/-- Membership in the entry list of a painted state. -/
theorem paintFromCache_ids (s : GalleryState) (fir : Bool) :
    (paintFromCache s fir).entries.map (·.id) =
      ((s.listCache.take PAGE_SIZE).filter
        (fun e => !s.pendingDeleteIds.contains e.id)).map (·.id) := by
  unfold paintFromCache
  simp only [queueImageLoads_map_id, List.map_map]
  rfl

/-- Everything `collectAppended` emits comes from the supplied items,
carries an id outside `existingIds`, and the emitted ids are mutually
distinct. -/
theorem collectAppended_ids_spec (cache : List (String × String)) :
    ∀ (items : List Entry) (exist : List Nat),
      (((collectAppended exist items cache).map (·.id)).Nodup) ∧
      (∀ x ∈ (collectAppended exist items cache).map (·.id), x ∉ exist) ∧
      (∀ x ∈ (collectAppended exist items cache).map (·.id), ∃ e ∈ items, e.id = x) := by
  intro items
  induction items with
  | nil => intro exist; simp [collectAppended]
  | cons entry rest ih =>
      intro exist
      by_cases h : exist.contains entry.id
      · simp only [collectAppended, h, if_pos]
        obtain ⟨h1, h2, h3⟩ := ih exist
        exact ⟨h1, h2, fun x hx => by
          obtain ⟨e, he, hid⟩ := h3 x hx
          exact ⟨e, List.mem_cons_of_mem _ he, hid⟩⟩
      · simp only [collectAppended, h, if_neg, Bool.false_eq_true, not_false_iff]
        obtain ⟨h1, h2, h3⟩ := ih (entry.id :: exist)
        refine ⟨?_, ?_, ?_⟩
        · simp only [List.map_cons, buildEntryWithCache_id, List.nodup_cons]
          refine ⟨fun hmem => ?_, h1⟩
          exact h2 _ hmem (List.mem_cons_self _ _)
        · intro x hx
          simp only [List.map_cons, buildEntryWithCache_id, List.mem_cons] at hx
          rcases hx with rfl | hx
          · intro hc
            exact absurd (List.elem_iff.mpr hc) (by simpa using h)
          · intro hc
            exact h2 x hx (List.mem_cons_of_mem _ hc)
        · intro x hx
          simp only [List.map_cons, buildEntryWithCache_id, List.mem_cons] at hx
          rcases hx with rfl | hx
          · exact ⟨entry, List.mem_cons_self _ _, rfl⟩
          · obtain ⟨e, he, hid⟩ := h3 x hx
            exact ⟨e, List.mem_cons_of_mem _ he, hid⟩

theorem syncSelection_entries (s : GalleryState) :
    (syncSelectionWithEntries s).entries = s.entries := rfl

theorem syncSelection_pending (s : GalleryState) :
    (syncSelectionWithEntries s).pendingDeleteIds = s.pendingDeleteIds := rfl

theorem map_id_build (visible : List Entry) (g : Entry → Option Entry)
    (cache : List (String × String)) (fir : Bool) :
    (visible.map (fun entry => buildEntryWithCache entry (g entry) cache fir)).map
        (·.id) = visible.map (·.id) := by
  induction visible with
  | nil => rfl
  | cons e rest ih => simp only [List.map_cons, buildEntryWithCache_id, ih]

/-- The ids `mergeTopPage` leaves in the in-memory list: the
pending-filtered server ids, followed (when the existing tail is kept)
by the previous ids not among them. -/
theorem mergeTopPage_ids (s : GalleryState) (items : List Entry)
    (fir ket : Bool) :
    (mergeTopPage s items fir ket).entries.map (·.id) =
      (let visibleIds :=
        (items.filter (fun e => !s.pendingDeleteIds.contains e.id)).map (·.id)
      if ket then
        visibleIds ++ (s.entries.map (·.id)).filter (fun i => !visibleIds.contains i)
      else visibleIds) := by
  unfold mergeTopPage
  rw [syncSelection_entries]
  simp only [queueImageLoads_map_id]
  by_cases h : ket
  · simp only [h, if_true, List.map_append]
    rw [map_id_build _ (fun entry => existingById s.entries entry.id)]
    exact congrArg _ (map_id_filter s.entries
      (fun i =>
        !((items.filter (fun e => !s.pendingDeleteIds.contains e.id)).map
          (·.id)).contains i))
  · simp only [h, if_false, Bool.false_eq_true]
    rw [map_id_build _ (fun entry => existingById s.entries entry.id)]

theorem mem_ids_filter_pending {pending : List Nat} {items : List Entry} {x : Nat}
    (hx : x ∈ ((items.filter (fun e => !pending.contains e.id)).map (·.id))) :
    pending.contains x = false ∧ x ∈ items.map (·.id) := by
  obtain ⟨e, he, hid⟩ := mem_map_id.mp hx
  obtain ⟨hmem, hp⟩ := List.mem_filter.mp he
  subst hid
  exact ⟨by simpa using hp, List.mem_map_of_mem _ hmem⟩

/-- C1.  Pending-deletion exclusion: painting from the ListCache never
shows a pending id, and the two network merges (`mergeTopPage`, in both
its forced and unforced form, and the `loadMore` append) never
introduce a pending id into a visible list that did not already show
one — even when the fetched page's items contain entries with pending
ids. -/
theorem pending_deletion_exclusion :
    (∀ (s : GalleryState) (fir : Bool) (e : Entry),
        e ∈ (paintFromCache s fir).entries →
        s.pendingDeleteIds.contains e.id = false) ∧
    (∀ (s : GalleryState) (items : List Entry) (fir ket : Bool) (e : Entry),
        (∀ e' ∈ s.entries, s.pendingDeleteIds.contains e'.id = false) →
        e ∈ (mergeTopPage s items fir ket).entries →
        s.pendingDeleteIds.contains e.id = false) ∧
    (∀ (s : GalleryState) (fetched : Except String Page) (e : Entry),
        (∀ e' ∈ s.entries, s.pendingDeleteIds.contains e'.id = false) →
        e ∈ (loadMore s fetched).entries →
        s.pendingDeleteIds.contains e.id = false) := by
  refine ⟨?_, ?_, ?_⟩
  · intro s fir e he
    have hx : e.id ∈ (paintFromCache s fir).entries.map (·.id) :=
      List.mem_map_of_mem _ he
    rw [paintFromCache_ids] at hx
    exact (mem_ids_filter_pending hx).1
  · intro s items fir ket e hpre he
    have hx : e.id ∈ (mergeTopPage s items fir ket).entries.map (·.id) :=
      List.mem_map_of_mem _ he
    rw [mergeTopPage_ids] at hx
    simp only at hx
    by_cases h : ket
    · rw [if_pos h, List.mem_append] at hx
      rcases hx with hx | hx
      · exact (mem_ids_filter_pending hx).1
      · obtain ⟨hmem, _⟩ := List.mem_filter.mp hx
        obtain ⟨e', he', hid⟩ := mem_map_id.mp hmem
        rw [← hid]
        exact hpre e' he'
    · rw [if_neg h] at hx
      exact (mem_ids_filter_pending hx).1
  · intro s fetched e hpre he
    unfold loadMore at he
    split at he
    · exact hpre e he
    split at he
    · exact hpre e he
    cases fetched with
    | error msg => exact hpre e he
    | ok page =>
        have he2 : e ∈ (loadMoreAppend s page).entries := he
        unfold loadMoreAppend at he2
        dsimp only at he2
        split at he2
        case isFalse => exact hpre e he2
        case isTrue hne =>
          rw [syncSelection_entries] at he2
          have he' : e ∈ s.entries ++ (queueImageLoads
              (collectAppended (s.entries.map (·.id))
                (page.items.filter (fun entry =>
                  !s.pendingDeleteIds.contains entry.id)) s.imageCache)
              s.imageCache).1 := he2
          rw [List.mem_append] at he'
          rcases he' with he' | he'
          · exact hpre e he'
          · have hx : e.id ∈ (queueImageLoads
                (collectAppended (s.entries.map (·.id))
                  (page.items.filter (fun entry =>
                    !s.pendingDeleteIds.contains entry.id)) s.imageCache)
                s.imageCache).1.map (·.id) := List.mem_map_of_mem _ he'
            rw [queueImageLoads_map_id] at hx
            obtain ⟨_, _, h3⟩ := collectAppended_ids_spec s.imageCache
              (page.items.filter (fun entry =>
                !s.pendingDeleteIds.contains entry.id))
              (s.entries.map (·.id))
            obtain ⟨e', he', hid⟩ := h3 e.id hx
            obtain ⟨_, hp⟩ := List.mem_filter.mp he'
            rw [← hid]
            simpa using hp

/-- Concrete state and server item exercising `pending_deletion_exclusion`:
entry id 1 is visible after a forced top-page merge while id 9 is
pending deletion. -/
def entryOne : Entry := { id := 1, prompt := "", fileId := none, src := none, loading := false }

def stateC1 : GalleryState :=
  { entries := [], loading := false, error := "", selectedIndex := -1,
    loadingMore := false, hasMore := true, paginationCursor := none,
    batchMode := false, selectedEntryIds := [], pendingDeleteIds := [9],
    listCache := [], imageCache := [] }

/-- Witness for `pending_deletion_exclusion` at a concrete merge. -/
theorem pending_deletion_exclusion_witness :
    stateC1.pendingDeleteIds.contains entryOne.id = false :=
  pending_deletion_exclusion.2.1 stateC1 [entryOne] false true entryOne
    (by decide) (by decide)

/-- C4.  loadMore contract: a no-op when a load is in flight or when
`hasMore`/cursor forbid it; otherwise the appended ids are mutually
distinct, disjoint from the ids already present, drawn from the fetched
page with pending-deletion ids filtered out, and cursor/hasMore are
taken from the response. -/
theorem loadMore_contract :
    (∀ (s : GalleryState) (fetched : Except String Page),
        s.loading = true ∨ s.loadingMore = true → loadMore s fetched = s) ∧
    (∀ (s : GalleryState) (fetched : Except String Page),
        s.hasMore = false ∨ cursorFalsy s.paginationCursor = true →
        loadMore s fetched = s) ∧
    (∀ (s : GalleryState) (page : Page),
        s.loading = false → s.loadingMore = false → s.hasMore = true →
        cursorFalsy s.paginationCursor = false →
        let appendedIds := (collectAppended (s.entries.map (·.id))
          (page.items.filter (fun e => !s.pendingDeleteIds.contains e.id))
          s.imageCache).map (·.id)
        ((loadMore s (.ok page)).entries.map (·.id) =
            s.entries.map (·.id) ++ appendedIds) ∧
        appendedIds.Nodup ∧
        (∀ x ∈ appendedIds, x ∉ s.entries.map (·.id)) ∧
        (∀ x ∈ appendedIds,
            x ∈ page.items.map (·.id) ∧ s.pendingDeleteIds.contains x = false) ∧
        (loadMore s (.ok page)).paginationCursor = page.nextCursor ∧
        (loadMore s (.ok page)).hasMore = page.hasMore) := by
  refine ⟨?_, ?_, ?_⟩
  · intro s fetched h
    unfold loadMore
    rw [if_pos]
    rcases h with h | h <;> simp [h]
  · intro s fetched h
    unfold loadMore
    by_cases hg1 : s.loading || s.loadingMore
    · rw [if_pos hg1]
    · rw [if_neg hg1, if_pos]
      rcases h with h | h <;> simp [h]
  · intro s page h1 h2 h3 h4
    have hloadMore : loadMore s (.ok page) = loadMoreAppend s page := by
      unfold loadMore
      rw [if_neg (by simp [h1, h2]), if_neg (by simp [h3, h4])]
    obtain ⟨hnd, hnotin, hsrc⟩ := collectAppended_ids_spec s.imageCache
      (page.items.filter (fun e => !s.pendingDeleteIds.contains e.id))
      (s.entries.map (·.id))
    dsimp only
    refine ⟨?_, hnd, fun x hx => hnotin x hx, ?_, ?_, ?_⟩
    · rw [hloadMore]
      unfold loadMoreAppend
      dsimp only
      split
      case isTrue hne =>
        rw [syncSelection_entries]
        show (s.entries ++ (queueImageLoads _ s.imageCache).1).map (·.id) = _
        rw [List.map_append, queueImageLoads_map_id]
      case isFalse hne =>
        have hemp : (collectAppended (s.entries.map (·.id))
            (page.items.filter (fun e => !s.pendingDeleteIds.contains e.id))
            s.imageCache) = [] := by
          rcases hx : (collectAppended (s.entries.map (·.id))
            (page.items.filter (fun e => !s.pendingDeleteIds.contains e.id))
            s.imageCache) with _ | ⟨a, l⟩
          · exact hx
          · exact absurd (by rw [hx]; rfl) hne
        show s.entries.map (·.id) = _
        rw [hemp]
        simp
    · intro x hx
      obtain ⟨e, he, hid⟩ := hsrc x hx
      obtain ⟨hmem, hp⟩ := List.mem_filter.mp he
      subst hid
      exact ⟨List.mem_map_of_mem _ hmem, by simpa using hp⟩
    · rw [hloadMore]
      unfold loadMoreAppend
      dsimp only
    · rw [hloadMore]
      unfold loadMoreAppend
      dsimp only

/-- Concrete states exercising `loadMore_contract`. -/
def stateC4 : GalleryState :=
  { entries := [entryOne], loading := false, error := "", selectedIndex := -1,
    loadingMore := false, hasMore := true, paginationCursor := some 1,
    batchMode := false, selectedEntryIds := [], pendingDeleteIds := [],
    listCache := [], imageCache := [] }

def pageC4 : Page :=
  { items := [entryOne], hasMore := false, nextCursor := none }

/-- Witness for `loadMore_contract` at a concrete next-page fetch. -/
theorem loadMore_contract_witness :
    (loadMore stateC4 (.ok pageC4)).paginationCursor = pageC4.nextCursor :=
  ((loadMore_contract.2.2 stateC4 pageC4 (by decide) (by decide) (by decide)
    (by decide)).2.2.2.2).1

/-- The store of the concrete pagination scenario: ids 5..1 in
descending server order. -/
def docsC6 : List Doc :=
  [⟨5, 5⟩, ⟨4, 4⟩, ⟨3, 3⟩, ⟨2, 2⟩, ⟨1, 1⟩]

/-- C6.  Keyset pagination scenario on a store holding ids [5,4,3,2,1]
with page size 2: the three successive pages are [5,4] (more, cursor 4),
[3,2] (more, cursor 2) and [1] (no more, no cursor). -/
theorem keyset_pagination_scenario :
    fetchPage docsC6 none 2 =
      { items := [⟨5, 5⟩, ⟨4, 4⟩], hasMore := true, nextCursor := some 4 } ∧
    fetchPage docsC6 (some 4) 2 =
      { items := [⟨3, 3⟩, ⟨2, 2⟩], hasMore := true, nextCursor := some 2 } ∧
    fetchPage docsC6 (some 2) 2 =
      { items := [⟨1, 1⟩], hasMore := false, nextCursor := none } := by
  decide

/-- Locating a present id in a list with duplicate-free ids: the found
index is a faithful splice position — removing it and re-inserting the
removed entry at the same index restores the list, and no other entry
carries the id. -/
theorem findIndexById_splice :
    ∀ (l : List Entry) (x : Nat), x ∈ l.map (·.id) → (l.map (·.id)).Nodup →
      ∃ (i : Nat) (e : Entry),
        findIndexById l x = some i ∧ l[i]? = some e ∧ e.id = x ∧
        i ≤ (removeAt l i).length ∧
        insertAt i e (removeAt l i) = l ∧
        (∀ e' ∈ removeAt l i, e'.id ≠ x) := by
  intro l
  induction l with
  | nil => intro x hx; simp at hx
  | cons a rest ih =>
      intro x hx hnd
      simp only [List.map_cons, List.nodup_cons] at hnd
      by_cases ha : a.id = x
      · refine ⟨0, a, ?_, by simp, ha, by simp [removeAt], rfl, ?_⟩
        · simp [findIndexById, ha]
        · intro e' he' hce
          exact hnd.1 (by rw [ha, ← hce]; exact List.mem_map_of_mem _ he')
      · have hx' : x ∈ rest.map (·.id) := by
          simp only [List.map_cons, List.mem_cons] at hx
          rcases hx with hx | hx
          · exact absurd hx.symm ha
          · exact hx
        obtain ⟨i, e, hfind, hget, hid, hle, hins, hother⟩ := ih x hx' hnd.2
        refine ⟨i + 1, e, ?_, ?_, hid, ?_, ?_, ?_⟩
        · simp [findIndexById, ha, hfind]
        · simpa using hget
        · simpa [removeAt] using Nat.succ_le_succ hle
        · simp only [removeAt, insertAt, hins]
        · intro e' he'
          simp only [removeAt, List.mem_cons] at he'
          rcases he' with rfl | he'
          · exact ha
          · exact hother e' he'

/-- Hiding a present id (duplicate-free ids, id not already pending) and
then rolling back restores the entry list and the pending-deletion set
exactly. -/
theorem hide_restore_roundtrip (s : GalleryState) (x : Nat)
    (hmem : x ∈ s.entries.map (·.id))
    (hnd : (s.entries.map (·.id)).Nodup)
    (hpending : s.pendingDeleteIds.contains x = false) :
    (restoreHiddenEntry (hideEntryOptimistically s x).1
        (hideEntryOptimistically s x).2).entries = s.entries ∧
    (restoreHiddenEntry (hideEntryOptimistically s x).1
        (hideEntryOptimistically s x).2).pendingDeleteIds = s.pendingDeleteIds := by
  obtain ⟨i, e, hfind, hget, hid, hle, hins, hother⟩ :=
    findIndexById_splice s.entries x hmem hnd
  have hhide : hideEntryOptimistically s x =
      (syncSelectionWithEntries
        { s with entries := removeAt s.entries i,
                 selectedIndex :=
                   if s.selectedIndex = (i : Int) then -1
                   else if s.selectedIndex > (i : Int) then s.selectedIndex - 1
                   else s.selectedIndex,
                 pendingDeleteIds := pendingAdd s.pendingDeleteIds x },
       some (e, i)) := by
    unfold hideEntryOptimistically
    rw [hfind]
    simp only [hget]
  rw [hhide]
  have hadd : pendingAdd s.pendingDeleteIds x = x :: s.pendingDeleteIds := by
    unfold pendingAdd
    rw [hpending]
    simp
  unfold restoreHiddenEntry
  dsimp only [syncSelection_entries, syncSelection_pending]
  rw [hadd, hid, List.erase_cons_head]
  have hany : (removeAt s.entries i).any (fun e' => e'.id = x) = false := by
    rw [List.any_eq_false]
    intro e' he'
    simpa using hother e' he'
  have hmin : min i (removeAt s.entries i).length = i := Nat.min_eq_left hle
  constructor
  · rw [if_neg (by simp [hany])]
    dsimp only [syncSelection_entries]
    rw [hmin, hins]
  · rw [if_neg (by simp [hany])]
    rfl

/-- C2.  Rollback correctness of deleteOne: a rollback re-inserts the
snapshot entry at `min(originalIndex, currentLength)` (first conjunct,
for any state in which the id is not visible), and — with no concurrent
mutations between the optimistic hide and the failure — the failed
`performDelete` restores the exact entry list and pending-deletion set,
reporting failure. -/
theorem deleteOne_rollback (s : GalleryState) (entry : Entry)
    (hid0 : entry.id ≠ 0)
    (hmem : entry.id ∈ s.entries.map (·.id))
    (hnd : (s.entries.map (·.id)).Nodup)
    (hpending : s.pendingDeleteIds.contains entry.id = false) :
    (∀ (s' : GalleryState) (e' : Entry) (idx : Nat),
        s'.entries.any (fun e => e.id = e'.id) = false →
        (restoreHiddenEntry s' (some (e', idx))).entries =
          insertAt (min idx
            ((s'.pendingDeleteIds.erase e'.id, s'.entries).2.length)) e' s'.entries) ∧
    (performDelete s entry false).1.entries = s.entries ∧
    (performDelete s entry false).1.pendingDeleteIds = s.pendingDeleteIds ∧
    (performDelete s entry false).2 = some false := by
  refine ⟨?_, ?_, ?_, ?_⟩
  · intro s' e' idx hnotvis
    unfold restoreHiddenEntry
    dsimp only
    rw [if_neg (by simp [hnotvis])]
    rfl
  · have h := (hide_restore_roundtrip s entry.id hmem hnd hpending).1
    unfold performDelete
    rw [if_neg hid0]
    exact h
  · have h := (hide_restore_roundtrip s entry.id hmem hnd hpending).2
    unfold performDelete
    rw [if_neg hid0]
    exact h
  · unfold performDelete
    rw [if_neg hid0]
    rfl

/-- Concrete state exercising `deleteOne_rollback`: list [5,4,3], the
entry with id 4 deleted and rolled back. -/
def entryFive : Entry := { id := 5, prompt := "", fileId := none, src := none, loading := false }

def entryFour : Entry := { id := 4, prompt := "", fileId := none, src := none, loading := false }

def entryThree : Entry := { id := 3, prompt := "", fileId := none, src := none, loading := false }

def stateC2 : GalleryState :=
  { entries := [entryFive, entryFour, entryThree], loading := false, error := "",
    selectedIndex := -1, loadingMore := false, hasMore := true,
    paginationCursor := some 3, batchMode := false, selectedEntryIds := [],
    pendingDeleteIds := [], listCache := [entryFive, entryFour, entryThree],
    imageCache := [] }

/-- Witness for `deleteOne_rollback` at the concrete [5,4,3] state. -/
theorem deleteOne_rollback_witness :
    (performDelete stateC2 entryFour false).1.entries = stateC2.entries :=
  (deleteOne_rollback stateC2 entryFour (by decide) (by decide) (by decide)
    (by decide)).2.1

theorem mergeTopPage_cursor (s : GalleryState) (items : List Entry)
    (fir ket : Bool) :
    (mergeTopPage s items fir ket).paginationCursor = s.paginationCursor := rfl

theorem mergeTopPage_pending (s : GalleryState) (items : List Entry)
    (fir ket : Bool) :
    (mergeTopPage s items fir ket).pendingDeleteIds = s.pendingDeleteIds := rfl

/-- `load` on a forced list refresh of a populated list: no cache
paint, merge with the tail kept, cursor adopted only when none is set. -/
theorem load_forced_populated (s : GalleryState) (fir : Bool) (page : Page)
    (hemp : s.entries.isEmpty = false) :
    load s fir true (.ok page) =
      (let s₂ := mergeTopPage { s with error := "" } page.items fir true
       let s₃ := if cursorFalsy s₂.paginationCursor then
           { s₂ with paginationCursor := page.nextCursor } else s₂
       { s₃ with loading := false }) := by
  unfold load
  dsimp only
  rw [hemp]
  simp

/-- C3.  Background-refresh merge policy: a forced list refresh of an
already-populated list puts the pending-filtered fetched top page at
the front, preserves every previously-loaded id not present in the
fetched page as a tail behind it, and adopts the response cursor only
when no cursor was set yet. -/
theorem background_refresh_policy (s : GalleryState) (page : Page) (fir : Bool)
    (hne : s.entries ≠ []) :
    (load s fir true (.ok page)).entries.map (·.id) =
      ((page.items.filter (fun e => !s.pendingDeleteIds.contains e.id)).map (·.id)) ++
        ((s.entries.map (·.id)).filter (fun i =>
          !((page.items.filter (fun e =>
            !s.pendingDeleteIds.contains e.id)).map (·.id)).contains i)) ∧
    (load s fir true (.ok page)).paginationCursor =
      (if cursorFalsy s.paginationCursor then page.nextCursor
       else s.paginationCursor) := by
  have hemp : s.entries.isEmpty = false := by
    cases h : s.entries.isEmpty
    · rfl
    · exact absurd (List.isEmpty_iff.mp h) hne
  rw [load_forced_populated s fir page hemp]
  dsimp only
  constructor
  · have hm := mergeTopPage_ids { s with error := "" } page.items fir true
    dsimp only at hm
    rw [if_pos rfl] at hm
    split
    · exact hm
    · exact hm
  · split
    case isTrue h =>
      have h' : cursorFalsy s.paginationCursor = true := h
      rw [if_pos h']
    case isFalse h =>
      have h' : ¬ cursorFalsy s.paginationCursor = true := fun hh => h hh
      rw [if_neg h']
      exact mergeTopPage_cursor { s with error := "" } page.items fir true

/-- Witness for `background_refresh_policy` at the concrete [5,4,3]
state. -/
theorem background_refresh_policy_witness :
    (load stateC2 false true (Except.ok pageC4)).paginationCursor =
      (if cursorFalsy stateC2.paginationCursor then pageC4.nextCursor
       else stateC2.paginationCursor) :=
  (background_refresh_policy stateC2 pageC4 false (by decide)).2

/-- Counterexample to the claim that a NotFound delete leaves the same
visible end state as a success: on the concrete [5,4,3] list, deleting
id 4 with a NotFound response restores [5,4,3] (the id stays visible),
while a successful delete leaves [5,3]. -/
theorem notFound_delete_counterexample :
    ((performDeleteResp stateC2 entryFour DeleteResult.notFound).1.entries.map
        (·.id) = [5, 4, 3]) ∧
    ((performDeleteResp stateC2 entryFour DeleteResult.ok).1.entries.map
        (·.id) = [5, 3]) := by decide

/-- C7 (amended).  NotFound delete semantics as implemented: a NotFound
response makes `requestDeleteById` throw, so `performDelete` treats it
exactly like any failure — the optimistically hidden entry is restored
to the visible list, the pending flag is cleared, and the outcome is
surfaced as a failure. -/
theorem notFound_delete_rollback (s : GalleryState) (entry : Entry)
    (hid0 : entry.id ≠ 0)
    (hmem : entry.id ∈ s.entries.map (·.id))
    (hnd : (s.entries.map (·.id)).Nodup)
    (hpending : s.pendingDeleteIds.contains entry.id = false) :
    performDeleteResp s entry DeleteResult.notFound =
      performDelete s entry false ∧
    (performDeleteResp s entry DeleteResult.notFound).1.entries = s.entries ∧
    (performDeleteResp s entry DeleteResult.notFound).1.pendingDeleteIds =
      s.pendingDeleteIds ∧
    (performDeleteResp s entry DeleteResult.notFound).2 = some false := by
  refine ⟨rfl, ?_, ?_, ?_⟩
  · have h := (hide_restore_roundtrip s entry.id hmem hnd hpending).1
    unfold performDeleteResp performDelete
    rw [if_neg hid0]
    exact h
  · have h := (hide_restore_roundtrip s entry.id hmem hnd hpending).2
    unfold performDeleteResp performDelete
    rw [if_neg hid0]
    exact h
  · unfold performDeleteResp performDelete
    rw [if_neg hid0]
    rfl

/-- Witness for `notFound_delete_rollback` at the concrete [5,4,3]
state. -/
theorem notFound_delete_rollback_witness :
    (performDeleteResp stateC2 entryFour DeleteResult.notFound).1.entries =
      stateC2.entries :=
  (notFound_delete_rollback stateC2 entryFour (by decide) (by decide) (by decide)
    (by decide)).2.1

/-- The selection-set invariant: every selected id is the id of a
visible entry. -/
def SelectionOK (s : GalleryState) : Prop :=
  ∀ id ∈ s.selectedEntryIds, ∃ e ∈ s.entries, e.id = id

instance (s : GalleryState) : Decidable (SelectionOK s) := by
  unfold SelectionOK
  infer_instance

theorem selectionOK_sync (s : GalleryState) :
    SelectionOK (syncSelectionWithEntries s) := by
  intro id hid
  simp only [syncSelectionWithEntries] at hid
  obtain ⟨hmem, hp⟩ := List.mem_filter.mp hid
  rw [List.any_eq_true] at hp
  obtain ⟨e, he, heq⟩ := hp
  exact ⟨e, he, by simpa using heq⟩

/-- The state of the C9 counterexample: entry 1 is selected and
visible, but the ListCache snapshot holds only entry 2, so a
stale-while-revalidate paint replaces the visible list without
resynchronizing the selection. -/
def entryTwo : Entry := { id := 2, prompt := "", fileId := none, src := none, loading := false }

def stateC9 : GalleryState :=
  { entries := [entryOne], loading := false, error := "", selectedIndex := -1,
    loadingMore := false, hasMore := true, paginationCursor := none,
    batchMode := true, selectedEntryIds := [1], pendingDeleteIds := [],
    listCache := [entryTwo], imageCache := [] }

/-- Counterexample to the claim that the selection is a subset of the
visible ids after *every* list mutation including the initial ListCache
paint: the paint step of `load` (which does not call
`syncSelectionWithEntries`) leaves id 1 selected while the painted list
only shows id 2. -/
theorem selection_subset_counterexample :
    SelectionOK stateC9 ∧
    (paintFromCache stateC9 false).selectedEntryIds = [1] ∧
    ((paintFromCache stateC9 false).entries.map (·.id) = [2]) ∧
    ¬ SelectionOK (paintFromCache stateC9 false) := by decide

/-- C9 (amended).  Selection-set invariant: the selection stays a
subset of the visible ids across the top-page merge, the load-more
append, the optimistic hide, the rollback restore and the delete
confirmation — every one of these resynchronizes (or leaves both the
selection and the list untouched).  The initial ListCache paint is the
exception: it repaints the list without resynchronizing, so there the
invariant is only restored by the merge that follows the network
response. -/
theorem selection_subset_invariant :
    (∀ (s : GalleryState) (items : List Entry) (fir ket : Bool),
        SelectionOK (mergeTopPage s items fir ket)) ∧
    (∀ (s : GalleryState) (fetched : Except String Page),
        SelectionOK s → SelectionOK (loadMore s fetched)) ∧
    (∀ (s : GalleryState) (x : Nat),
        SelectionOK s → SelectionOK (hideEntryOptimistically s x).1) ∧
    (∀ (s : GalleryState) (snap : Option (Entry × Nat)),
        SelectionOK s → SelectionOK (restoreHiddenEntry s snap)) ∧
    (∀ (s : GalleryState) (entry : Entry),
        SelectionOK (finalizeDeleteSuccess s entry)) := by
  refine ⟨?_, ?_, ?_, ?_, ?_⟩
  · intro s items fir ket
    unfold mergeTopPage
    exact selectionOK_sync _
  · intro s fetched hs
    unfold loadMore
    split
    · exact hs
    split
    · exact hs
    match fetched with
    | .error msg => exact fun id hid => hs id hid
    | .ok page =>
        show SelectionOK (loadMoreAppend s page)
        unfold loadMoreAppend
        dsimp only
        split
        case isTrue h =>
          intro id hid
          obtain ⟨e, he, heq⟩ := selectionOK_sync _ id hid
          exact ⟨e, he, heq⟩
        case isFalse h => exact fun id hid => hs id hid
  · intro s x hs
    unfold hideEntryOptimistically
    split
    · exact hs
    split
    · exact hs
    exact selectionOK_sync _
  · intro s snap hs
    unfold restoreHiddenEntry
    match snap with
    | none => exact hs
    | some (entry, index) =>
        dsimp only
        split
        case isTrue h => exact fun id hid => hs id hid
        case isFalse h => exact selectionOK_sync _
  · intro s entry
    unfold finalizeDeleteSuccess
    exact selectionOK_sync _

/-- Witness for `selection_subset_invariant` at a concrete load-more. -/
theorem selection_subset_invariant_witness :
    SelectionOK stateC4 ∧ SelectionOK (loadMore stateC4 (Except.ok pageC4)) :=
  ⟨by decide, selection_subset_invariant.2.1 stateC4 (Except.ok pageC4) (by decide)⟩

/-- C8.  Pagination parameter validation: the effective limit always
lies in 1..200; it is 60 exactly when the supplied limit is absent or
unparsable and the parsed value clamped to 1..200 otherwise; every
paginated response carries that effective limit; and any request whose
(trimmed) cursor is non-empty but not a well-formed ObjectId is
answered with the 400 "Invalid cursor" client error rather than being
silently ignored. -/
theorem pagination_validation :
    (∀ limitRaw : Option String,
        1 ≤ effLimit limitRaw ∧ effLimit limitRaw ≤ 200) ∧
    (∀ limitRaw : Option String,
        jsParseInt (match limitRaw with | some s => s | none => "") = none →
        effLimit limitRaw = 60) ∧
    (∀ (limitRaw : Option String) (n : Int),
        jsParseInt (match limitRaw with | some s => s | none => "") = some n →
        (effLimit limitRaw : Int) = max 1 (min n 200)) ∧
    (∀ (store : List Doc) (limitRaw cursorRaw : Option String) (page : ServerPage)
        (limit : Nat),
        handleGalleryGet store limitRaw cursorRaw = .ok (.paged page limit) →
        limit = effLimit limitRaw) ∧
    (∀ (store : List Doc) (limitRaw cursorRaw : Option String),
        (match cursorRaw with | some s => jsTrim s | none => "") ≠ "" →
        isValidObjectId (match cursorRaw with | some s => jsTrim s | none => "") = false →
        handleGalleryGet store limitRaw cursorRaw = .error (400, "Invalid cursor")) := by
  refine ⟨?_, ?_, ?_, ?_, ?_⟩
  · intro limitRaw
    unfold effLimit
    cases h : jsParseInt (match limitRaw with | some s => s | none => "") with
    | none => exact ⟨by norm_num, by norm_num⟩
    | some n =>
        dsimp only
        have h1 : (1 : Int) ≤ max 1 (min n 200) := le_max_left _ _
        have h2 : max 1 (min n 200) ≤ 200 :=
          max_le (by norm_num) (min_le_right _ _)
        constructor <;> omega
  · intro limitRaw h
    unfold effLimit
    rw [h]
  · intro limitRaw n h
    unfold effLimit
    rw [h]
    dsimp only
    have h1 : (1 : Int) ≤ max 1 (min n 200) := le_max_left _ _
    omega
  · intro store limitRaw cursorRaw page limit h
    cases cursorRaw with
    | none =>
        unfold handleGalleryGet at h
        dsimp only at h
        split at h
        · split at h
          · exact absurd h (by simp)
          · simp only [Except.ok.injEq, GalleryResp.paged.injEq] at h
            exact h.2.symm
        · exact absurd h (by simp)
    | some cs =>
        unfold handleGalleryGet at h
        dsimp only at h
        split at h
        · split at h
          · exact absurd h (by simp)
          · simp only [Except.ok.injEq, GalleryResp.paged.injEq] at h
            exact h.2.symm
        · exact absurd h (by simp)
  · intro store limitRaw cursorRaw hne hbad
    cases cursorRaw with
    | none => exact absurd rfl hne
    | some cs =>
        have hne' : jsTrim cs ≠ "" := hne
        have hbad' : isValidObjectId (jsTrim cs) = false := hbad
        unfold handleGalleryGet
        dsimp only
        rw [if_pos (by simp [hne']), if_pos (by simp [hne', hbad'])]

/-- Witness for `pagination_validation`: a malformed cursor is rejected
with the 400 client error. -/
theorem pagination_validation_witness :
    handleGalleryGet docsC6 (some "50") (some "zz") =
      .error (400, "Invalid cursor") :=
  pagination_validation.2.2.2.2 docsC6 (some "50") (some "zz")
    (by decide) (by decide)

/-- "Some visible entry carries this id." -/
def hasId (l : List Entry) (x : Nat) : Prop :=
  ∃ e ∈ l, e.id = x

instance (l : List Entry) (x : Nat) : Decidable (hasId l x) := by
  unfold hasId
  infer_instance

theorem mem_insertAt : ∀ (n : Nat) (a : Entry) (l : List Entry) (b : Entry),
    b ∈ insertAt n a l ↔ b = a ∨ b ∈ l := by
  intro n
  induction n with
  | zero =>
      intro a l b
      simp [insertAt]
  | succ n ih =>
      intro a l b
      cases l with
      | nil => simp [insertAt]
      | cons x xs =>
          simp only [insertAt, List.mem_cons, ih]
          tauto

theorem removeAt_sublist : ∀ (l : List Entry) (i : Nat), List.Sublist (removeAt l i) l := by
  intro l
  induction l with
  | nil => intro i; simp [removeAt]
  | cons x xs ih =>
      intro i
      cases i with
      | zero => exact List.sublist_cons_self x xs
      | succ n => exact List.Sublist.cons₂ x (ih n)

theorem finalize_entries (s : GalleryState) (e : Entry) :
    (finalizeDeleteSuccess s e).entries = s.entries := rfl

/-- Restoring a snapshot whose id is not visible adds exactly that id
to the visible ids. -/
theorem restore_hasId (s : GalleryState) (e : Entry) (idx : Nat)
    (hnot : s.entries.any (fun e' => e'.id = e.id) = false) :
    ∀ y, hasId (restoreHiddenEntry s (some (e, idx))).entries y ↔
      (y = e.id ∨ hasId s.entries y) := by
  intro y
  unfold restoreHiddenEntry
  dsimp only
  rw [if_neg (by simp [hnot])]
  show hasId (insertAt (min idx s.entries.length) e s.entries) y ↔ _
  constructor
  · rintro ⟨e', he', rfl⟩
    rcases (mem_insertAt _ _ _ _).mp he' with rfl | he'
    · exact Or.inl rfl
    · exact Or.inr ⟨e', he', rfl⟩
  · rintro (rfl | ⟨e', he', rfl⟩)
    · exact ⟨e, (mem_insertAt _ _ _ _).mpr (Or.inl rfl), rfl⟩
    · exact ⟨e', (mem_insertAt _ _ _ _).mpr (Or.inr he'), rfl⟩

/-- `hideEntryOptimistically` at a found index, in closed form. -/
theorem hide_found_eq (s : GalleryState) (x : Nat) (i : Nat) (e : Entry)
    (hfind : findIndexById s.entries x = some i)
    (hget : s.entries[i]? = some e) :
    hideEntryOptimistically s x =
      (syncSelectionWithEntries
        { s with entries := removeAt s.entries i,
                 selectedIndex :=
                   if s.selectedIndex = (i : Int) then -1
                   else if s.selectedIndex > (i : Int) then s.selectedIndex - 1
                   else s.selectedIndex,
                 pendingDeleteIds := pendingAdd s.pendingDeleteIds x },
       some (e, i)) := by
  unfold hideEntryOptimistically
  rw [hfind]
  simp only [hget]

/-- The up-front optimistic-hide loop of `performBatchDelete`: given
duplicate-free visible ids and targets drawn from the visible entries
with duplicate-free ids, hiding the targets (i) keeps the visible ids
duplicate-free, (ii) leaves visible exactly the previous ids outside
the target set, and (iii) records one snapshot per target, carrying the
target's id. -/
theorem hideTargets_spec : ∀ (ts : List Entry) (s : GalleryState),
    (s.entries.map (·.id)).Nodup →
    (∀ t ∈ ts, t ∈ s.entries) →
    (ts.map (·.id)).Nodup →
    ((((hideTargets s ts).1.entries.map (·.id)).Nodup) ∧
     (∀ y, hasId (hideTargets s ts).1.entries y ↔
        (hasId s.entries y ∧ y ∉ ts.map (·.id))) ∧
     ((hideTargets s ts).2.map Prod.fst = ts) ∧
     (∀ p ∈ (hideTargets s ts).2,
        ∃ e' i, p.2 = some (e', i) ∧ e'.id = p.1.id)) := by
  intro ts
  induction ts with
  | nil =>
      intro s hnd _ _
      refine ⟨hnd, fun y => ?_, rfl, by simp [hideTargets]⟩
      simp [hideTargets]
  | cons t rest ih =>
      intro s hnd hsub htnd
      have htmem : t ∈ s.entries := hsub t (List.mem_cons_self _ _)
      have htid : t.id ∈ s.entries.map (·.id) := List.mem_map_of_mem _ htmem
      obtain ⟨i, e, hfind, hget, hid, hle, hins, hother⟩ :=
        findIndexById_splice s.entries t.id htid hnd
      simp only [List.map_cons, List.nodup_cons] at htnd
      have hstep := hide_found_eq s t.id i e hfind hget
      -- the state after hiding the head target
      have hentries1 : (hideEntryOptimistically s t.id).1.entries =
          removeAt s.entries i := congrArg (fun r => r.1.entries) hstep
      have hsnap1 : (hideEntryOptimistically s t.id).2 = some (e, i) :=
        congrArg (fun r => r.2) hstep
      have hnd1 : ((removeAt s.entries i).map (·.id)).Nodup :=
        ((removeAt_sublist s.entries i).map (·.id)).nodup hnd
      -- every entry of the remainder is an original entry
      have hsub1 : ∀ e' ∈ removeAt s.entries i, e' ∈ s.entries := by
        intro e' he'
        rw [← hins]
        exact (mem_insertAt _ _ _ _).mpr (Or.inr he')
      -- membership after the single hide
      have hmem1 : ∀ y, hasId (removeAt s.entries i) y ↔
          (hasId s.entries y ∧ y ≠ t.id) := by
        intro y
        constructor
        · rintro ⟨e', he', rfl⟩
          exact ⟨⟨e', hsub1 e' he', rfl⟩, hother e' he'⟩
        · rintro ⟨⟨e', he', rfl⟩, hne⟩
          rw [← hins] at he'
          rcases (mem_insertAt _ _ _ _).mp he' with rfl | he'
          · exact absurd hid hne
          · exact ⟨e', he', rfl⟩
      -- the remaining targets survive the hide
      have hsub2 : ∀ t' ∈ rest, t' ∈ removeAt s.entries i := by
        intro t' ht'
        have ht'mem := hsub t' (List.mem_cons_of_mem _ ht')
        rw [← hins] at ht'mem
        rcases (mem_insertAt _ _ _ _).mp ht'mem with rfl | ht'mem
        · exact absurd (by rw [← hid]; exact List.mem_map_of_mem _ ht') htnd.1
        · exact ht'mem
      have ihr := ih (hideEntryOptimistically s t.id).1
        (by rw [hentries1]; exact hnd1)
        (by rw [hentries1]; exact hsub2)
        htnd.2
      obtain ⟨ihnd, ihmem, ihfst, ihsnap⟩ := ihr
      have hfold : hideTargets s (t :: rest) =
          ((hideTargets (hideEntryOptimistically s t.id).1 rest).1,
           (t, (hideEntryOptimistically s t.id).2) ::
             (hideTargets (hideEntryOptimistically s t.id).1 rest).2) := rfl
      rw [hfold]
      refine ⟨ihnd, ?_, ?_, ?_⟩
      · intro y
        rw [ihmem y, hentries1, hmem1 y]
        simp only [List.map_cons, List.mem_cons]
        tauto
      · simp [ihfst]
      · intro p hp
        rcases List.mem_cons.mp hp with rfl | hp
        · exact ⟨e, i, hsnap1, hid⟩
        · exact ihsnap p hp

/-- The serial delete loop of `performBatchDelete`: with one snapshot
per hidden target (ids mutually distinct and all invisible), the loop
reports one success per target the server deletes and one failure per
target it rejects, and the final visible ids are the initial ones plus
exactly the failed (rolled-back) target ids. -/
theorem deleteLoop_spec : ∀ (ps : List (Entry × Option (Entry × Nat)))
    (s : GalleryState) (ok : Nat → Bool),
    (∀ p ∈ ps, ∃ e' i, p.2 = some (e', i) ∧ e'.id = p.1.id) →
    ((ps.map (fun p => p.1.id)).Nodup) →
    (∀ p ∈ ps, ¬ hasId s.entries p.1.id) →
    (((deleteLoop s ps ok).2.1 = (ps.filter (fun p => ok p.1.id)).length) ∧
     ((deleteLoop s ps ok).2.2 = (ps.filter (fun p => !(ok p.1.id))).length) ∧
     (∀ y, hasId (deleteLoop s ps ok).1.entries y ↔
        (hasId s.entries y ∨
          (y ∈ ps.map (fun p => p.1.id) ∧ ok y = false)))) := by
  intro ps
  induction ps with
  | nil =>
      intro s ok _ _ _
      refine ⟨rfl, rfl, fun y => ?_⟩
      simp [deleteLoop]
  | cons p rest ih =>
      intro s ok hsnap hnd hdisj
      obtain ⟨e', i, hsnapEq, hidEq⟩ := hsnap p (List.mem_cons_self _ _)
      simp only [List.map_cons, List.nodup_cons] at hnd
      rcases p with ⟨t, snap⟩
      dsimp only at hsnapEq hidEq hnd ⊢
      subst hsnapEq
      by_cases hok : ok t.id = true
      · -- success branch: finalize, entries unchanged
        have hfold : deleteLoop s ((t, some (e', i)) :: rest) ok =
            ((deleteLoop (finalizeDeleteSuccess s t) rest ok).1,
             (deleteLoop (finalizeDeleteSuccess s t) rest ok).2.1 + 1,
             (deleteLoop (finalizeDeleteSuccess s t) rest ok).2.2) := by
          conv_lhs => simp only [deleteLoop]
          rw [if_pos hok]
        have hdisj1 : ∀ q ∈ rest, ¬ hasId (finalizeDeleteSuccess s t).entries q.1.id := by
          intro q hq
          rw [finalize_entries]
          exact hdisj q (List.mem_cons_of_mem _ hq)
        obtain ⟨ihsc, ihfc, ihmem⟩ := ih (finalizeDeleteSuccess s t) ok
          (fun q hq => hsnap q (List.mem_cons_of_mem _ hq)) hnd.2 hdisj1
        rw [hfold]
        refine ⟨?_, ?_, ?_⟩
        · rw [List.filter_cons, if_pos (by simpa using hok)]
          simp [ihsc]
        · rw [List.filter_cons, if_neg (by simp [hok])]
          exact ihfc
        · intro y
          rw [ihmem y, finalize_entries]
          simp only [List.map_cons, List.mem_cons]
          constructor
          · rintro (h | ⟨hmem, hokf⟩)
            · exact Or.inl h
            · exact Or.inr ⟨Or.inr hmem, hokf⟩
          · rintro (h | ⟨rfl | hmem, hokf⟩)
            · exact Or.inl h
            · exact absurd hok (by rw [hokf]; simp)
            · exact Or.inr ⟨hmem, hokf⟩
      · -- failure branch: restore, the id becomes visible again
        have hokf : ok t.id = false := by
          cases h : ok t.id
          · rfl
          · exact absurd h hok
        have hfold : deleteLoop s ((t, some (e', i)) :: rest) ok =
            ((deleteLoop (restoreHiddenEntry s (some (e', i))) rest ok).1,
             (deleteLoop (restoreHiddenEntry s (some (e', i))) rest ok).2.1,
             (deleteLoop (restoreHiddenEntry s (some (e', i))) rest ok).2.2 + 1) := by
          conv_lhs => simp only [deleteLoop]
          rw [if_neg hok]
        have hnotvis : s.entries.any (fun e'' => e''.id = e'.id) = false := by
          rw [List.any_eq_false]
          intro e'' he''
          simp only [decide_eq_true_eq]
          intro hcon
          exact hdisj (t, some (e', i)) (List.mem_cons_self _ _)
            ⟨e'', he'', by rw [hcon, hidEq]⟩
        have hrs := restore_hasId s e' i hnotvis
        have hdisj1 : ∀ q ∈ rest,
            ¬ hasId (restoreHiddenEntry s (some (e', i))).entries q.1.id := by
          intro q hq hvis
          rcases (hrs q.1.id).mp hvis with heq | hvis'
          · rw [hidEq] at heq
            exact hnd.1 (heq ▸ List.mem_map_of_mem (fun p => p.1.id) hq)
          · exact hdisj q (List.mem_cons_of_mem _ hq) hvis'
        obtain ⟨ihsc, ihfc, ihmem⟩ := ih (restoreHiddenEntry s (some (e', i))) ok
          (fun q hq => hsnap q (List.mem_cons_of_mem _ hq)) hnd.2 hdisj1
        rw [hfold]
        refine ⟨?_, ?_, ?_⟩
        · rw [List.filter_cons, if_neg (by simp [hokf])]
          exact ihsc
        · rw [List.filter_cons, if_pos (by simp [hokf])]
          simp [ihfc]
        · intro y
          rw [ihmem y]
          simp only [List.map_cons, List.mem_cons]
          constructor
          · rintro (hvis | ⟨hmem, hoky⟩)
            · rcases (hrs y).mp hvis with rfl | hvis'
              · exact Or.inr ⟨Or.inl hidEq, by rw [hidEq]; exact hokf⟩
              · exact Or.inl hvis'
            · exact Or.inr ⟨Or.inr hmem, hoky⟩
          · rintro (hvis | ⟨rfl | hmem, hoky⟩)
            · exact Or.inl ((hrs y).mpr (Or.inr hvis))
            · exact Or.inl ((hrs t.id).mpr (Or.inl hidEq.symm))
            · exact Or.inr ⟨hmem, hoky⟩

theorem filter_fst_length :
    ∀ (ps : List (Entry × Option (Entry × Nat))) (q : Nat → Bool),
      (ps.filter (fun p => q p.1.id)).length =
        ((ps.map Prod.fst).filter (fun e => q e.id)).length := by
  intro ps q
  induction ps with
  | nil => rfl
  | cons p rest ih =>
      by_cases h : q p.1.id
      · simp only [List.filter_cons, List.map_cons, h, if_pos, List.length_cons, ih]
      · simp only [List.filter_cons, List.map_cons, h, Bool.false_eq_true,
          if_neg, not_false_iff, ih]

/-- C5.  Batch deletion accounting: over the N selected entries (all
hidden optimistically up front, then deleted strictly serially by the
sequential loop), `performBatchDelete` reports exactly the number of
targets whose request succeeded and the number that failed, and the
final visible ids are the initial ones minus exactly the successfully
deleted target ids (failed targets are rolled back, independently of
their siblings). -/
theorem batch_delete_accounting (s : GalleryState) (ok : Nat → Bool)
    (hnd : (s.entries.map (·.id)).Nodup)
    (hne : s.entries.filter (fun e => s.selectedEntryIds.contains e.id) ≠ []) :
    ((performBatchDelete s true ok).2 =
      some (((s.entries.filter (fun e => s.selectedEntryIds.contains e.id)).filter
               (fun e => ok e.id)).length,
            ((s.entries.filter (fun e => s.selectedEntryIds.contains e.id)).filter
               (fun e => !(ok e.id))).length)) ∧
    (∀ y, hasId (performBatchDelete s true ok).1.entries y ↔
        (hasId s.entries y ∧
          ¬(y ∈ (s.entries.filter (fun e =>
              s.selectedEntryIds.contains e.id)).map (·.id) ∧ ok y = true))) := by
  have hTsub : ∀ t ∈ s.entries.filter (fun e => s.selectedEntryIds.contains e.id),
      t ∈ s.entries := fun t ht => (List.mem_filter.mp ht).1
  have hTnd : ((s.entries.filter (fun e =>
      s.selectedEntryIds.contains e.id)).map (·.id)).Nodup :=
    ((List.filter_sublist s.entries).map (·.id)).nodup hnd
  obtain ⟨hhnd, hhmem, hhfst, hhsnap⟩ := hideTargets_spec
    (s.entries.filter (fun e => s.selectedEntryIds.contains e.id)) s hnd hTsub hTnd
  have hTne : (s.entries.filter
      (fun e => s.selectedEntryIds.contains e.id)).isEmpty = false := by
    cases h : (s.entries.filter (fun e => s.selectedEntryIds.contains e.id)).isEmpty
    · rfl
    · exact absurd (List.isEmpty_iff.mp h) hne
  -- the run of performBatchDelete in closed form
  have hrun : performBatchDelete s true ok =
      ((deleteLoop
          { (hideTargets s (s.entries.filter
              (fun e => s.selectedEntryIds.contains e.id))).1 with
            selectedEntryIds := [], batchMode := false }
          (hideTargets s (s.entries.filter
              (fun e => s.selectedEntryIds.contains e.id))).2 ok).1,
       some ((deleteLoop
          { (hideTargets s (s.entries.filter
              (fun e => s.selectedEntryIds.contains e.id))).1 with
            selectedEntryIds := [], batchMode := false }
          (hideTargets s (s.entries.filter
              (fun e => s.selectedEntryIds.contains e.id))).2 ok).2.1,
         (deleteLoop
          { (hideTargets s (s.entries.filter
              (fun e => s.selectedEntryIds.contains e.id))).1 with
            selectedEntryIds := [], batchMode := false }
          (hideTargets s (s.entries.filter
              (fun e => s.selectedEntryIds.contains e.id))).2 ok).2.2)) := by
    unfold performBatchDelete
    rw [if_neg (by rw [hTne]; simp), if_neg (by simp)]
  have hfstids : (hideTargets s (s.entries.filter
      (fun e => s.selectedEntryIds.contains e.id))).2.map (fun p => p.1.id) =
      (s.entries.filter (fun e => s.selectedEntryIds.contains e.id)).map (·.id) := by
    conv_rhs => rw [← hhfst]
    rw [List.map_map]
    rfl
  have hdisj : ∀ p ∈ (hideTargets s (s.entries.filter
      (fun e => s.selectedEntryIds.contains e.id))).2,
      ¬ hasId ({ (hideTargets s (s.entries.filter
          (fun e => s.selectedEntryIds.contains e.id))).1 with
          selectedEntryIds := [], batchMode := false } : GalleryState).entries
        p.1.id := by
    intro p hp hvis
    have hvis' : hasId (hideTargets s (s.entries.filter
        (fun e => s.selectedEntryIds.contains e.id))).1.entries p.1.id := hvis
    have hid : p.1.id ∈ (s.entries.filter
        (fun e => s.selectedEntryIds.contains e.id)).map (·.id) := by
      rw [← hfstids]
      exact List.mem_map_of_mem _ hp
    exact ((hhmem p.1.id).mp hvis').2 hid
  obtain ⟨hsc, hfc, hmem⟩ := deleteLoop_spec
    (hideTargets s (s.entries.filter
        (fun e => s.selectedEntryIds.contains e.id))).2
    { (hideTargets s (s.entries.filter
        (fun e => s.selectedEntryIds.contains e.id))).1 with
      selectedEntryIds := [], batchMode := false } ok
    hhsnap (by rw [hfstids]; exact hTnd) hdisj
  have hT2s : ∀ y, y ∈ (s.entries.filter
      (fun e => s.selectedEntryIds.contains e.id)).map (·.id) →
      hasId s.entries y := by
    intro y hy
    obtain ⟨e, he, hid⟩ := List.mem_map.mp hy
    exact ⟨e, (List.mem_filter.mp he).1, hid⟩
  constructor
  · rw [hrun]
    dsimp only
    rw [hsc, hfc, filter_fst_length _ ok, filter_fst_length _ (fun i => !(ok i)),
      hhfst]
  · intro y
    rw [hrun]
    dsimp only
    rw [hmem y]
    have hs2 : hasId ({ (hideTargets s (s.entries.filter
        (fun e => s.selectedEntryIds.contains e.id))).1 with
        selectedEntryIds := [], batchMode := false } : GalleryState).entries y ↔
        (hasId s.entries y ∧ y ∉ (s.entries.filter
          (fun e => s.selectedEntryIds.contains e.id)).map (·.id)) := hhmem y
    rw [hs2, hfstids]
    constructor
    · rintro (⟨hs, hnT⟩ | ⟨hT, hokf⟩)
      · exact ⟨hs, fun h => hnT h.1⟩
      · refine ⟨hT2s y hT, fun h => ?_⟩
        exact absurd (hokf.symm.trans h.2) (by decide)
    · rintro ⟨hs, hnot⟩
      by_cases hT : y ∈ (s.entries.filter
          (fun e => s.selectedEntryIds.contains e.id)).map (·.id)
      · cases hok : ok y
        · exact Or.inr ⟨hT, rfl⟩
        · exact absurd ⟨hT, hok⟩ hnot
      · exact Or.inl ⟨hs, hT⟩

/-- Outcome function of the C5 witness: only id 5's delete succeeds. -/
def okC5 : Nat → Bool := fun x => x == 5

/-- State of the C5 witness: [5,4,3] visible, ids 5 and 4 selected. -/
def stateC5 : GalleryState :=
  { entries := [entryFive, entryFour, entryThree], loading := false, error := "",
    selectedIndex := -1, loadingMore := false, hasMore := false,
    paginationCursor := none, batchMode := true, selectedEntryIds := [5, 4],
    pendingDeleteIds := [], listCache := [], imageCache := [] }

/-- Witness for `batch_delete_accounting`: deleting selected {5,4} with
only 5 succeeding reports 1 success and 1 failure. -/
theorem batch_delete_accounting_witness :
    (performBatchDelete stateC5 true okC5).2 =
      some (((stateC5.entries.filter (fun e =>
                stateC5.selectedEntryIds.contains e.id)).filter
               (fun e => okC5 e.id)).length,
            ((stateC5.entries.filter (fun e =>
                stateC5.selectedEntryIds.contains e.id)).filter
               (fun e => !(okC5 e.id))).length) :=
  (batch_delete_accounting stateC5 okC5 (by decide) (by decide)).1

/-- The header object `{ alg: 'HS256', typ: 'JWT' }` of `jwtSign`. -/
def jwtHeaderFields : List (String × Json) :=
  [("alg", Json.str "HS256"), ("typ", Json.str "JWT")]

/-- The `{ ...payload, iat: now, exp: now + expiresInSeconds }` object
of `jwtSign`. -/
def jwtFullPayload (payload : List (String × Json)) (expiresInSeconds now : Nat) :
    List (String × Json) :=
  setField (setField payload "iat" (Json.num now)) "exp"
    (Json.num (now + expiresInSeconds))

/-- The `headerB64.payloadB64` signing input of `jwtSign`. -/
def jwtSigningInput (X : JwtPrims) (payload : List (String × Json))
    (expiresInSeconds now : Nat) : String :=
  X.b64str (X.stringifyObj jwtHeaderFields) ++ "." ++
    X.b64str (X.stringifyObj (jwtFullPayload payload expiresInSeconds now))

theorem jwtSign_eq (X : JwtPrims) (payload : List (String × Json))
    (secret : String) (e now : Nat) :
    jwtSign X payload secret e now =
      jwtSigningInput X payload e now ++ "." ++
        X.b64bytes (X.hmacSha256 secret (jwtSigningInput X payload e now)) := rfl

theorem getField_setField_same :
    ∀ (l : List (String × Json)) (k : String) (v : Json),
      getField (setField l k v) k = some v := by
  intro l
  induction l with
  | nil => intro k v; simp [setField, getField]
  | cons p rest ih =>
      intro k v
      by_cases h : p.1 = k
      · simp [setField, getField, h]
      · simp [setField, getField, h, ih]

theorem getField_setField_other :
    ∀ (l : List (String × Json)) (k : String) (v : Json) (k' : String),
      k' ≠ k → getField (setField l k v) k' = getField l k' := by
  intro l
  induction l with
  | nil =>
      intro k v k' hne
      simp [setField, getField]
      exact fun hc => hne hc.symm
  | cons p rest ih =>
      intro k v k' hne
      by_cases h : p.1 = k
      · by_cases h' : p.1 = k'
        · exact absurd (h'.symm.trans h) hne
        · have hkk' : ¬ k = k' := fun hc => hne hc.symm
          simp [setField, getField, h, h', hkk']
      · simp [setField, getField, h, ih _ _ _ hne]

/-- C10 (amended).  JWT round-trip: under the stated behaviour of the
injected browser primitives at the values this token uses (the
base64url codecs invert each other, the JSON codec round-trips the full
payload, and the three encoded segments split back apart on `'.'`),
verifying a token signed with the same secret at or before its expiry
succeeds and returns the full payload, whose `iat`/`exp` fields are the
issue and expiry times and whose remaining fields are exactly those of
the original payload (so a payload's own `iat`/`exp` fields are
overwritten, not preserved); verifying after the expiry throws
`Token expired`, and any three-part token whose signature bytes differ
from the HMAC of its signing input throws `Invalid signature`. -/
theorem jwt_roundtrip (X : JwtPrims) (payload : List (String × Json))
    (secret : String) (e now : Nat)
    (hsplit : jsSplit '.' (jwtSign X payload secret e now) =
      [X.b64str (X.stringifyObj jwtHeaderFields),
       X.b64str (X.stringifyObj (jwtFullPayload payload e now)),
       X.b64bytes (X.hmacSha256 secret (jwtSigningInput X payload e now))])
    (hsig : X.unb64bytes (X.b64bytes (X.hmacSha256 secret
        (jwtSigningInput X payload e now))) =
      X.hmacSha256 secret (jwtSigningInput X payload e now))
    (hpl : X.parseObj (X.decodeText (X.unb64bytes
        (X.b64str (X.stringifyObj (jwtFullPayload payload e now))))) =
      some (jwtFullPayload payload e now)) :
    (∀ now', now' ≤ now + e →
        jwtVerify X (jwtSign X payload secret e now) secret now' =
          .ok (jwtFullPayload payload e now)) ∧
    (getField (jwtFullPayload payload e now) "iat" = some (Json.num now)) ∧
    (getField (jwtFullPayload payload e now) "exp" =
      some (Json.num (now + e))) ∧
    (∀ k, k ≠ "iat" → k ≠ "exp" →
        getField (jwtFullPayload payload e now) k = getField payload k) ∧
    (∀ now'', now + e < now'' → 0 < now + e →
        jwtVerify X (jwtSign X payload secret e now) secret now'' =
          .error "Token expired") ∧
    (∀ (h p sb : String) (t : Nat),
        jsSplit '.' ((h ++ "." ++ p) ++ "." ++ sb) = [h, p, sb] →
        X.unb64bytes sb ≠ X.hmacSha256 secret (h ++ "." ++ p) →
        jwtVerify X ((h ++ "." ++ p) ++ "." ++ sb) secret t =
          .error "Invalid signature") := by
  have hexp : getField (jwtFullPayload payload e now) "exp" =
      some (Json.num (now + e)) := getField_setField_same _ _ _
  have hiat : getField (jwtFullPayload payload e now) "iat" =
      some (Json.num now) := by
    unfold jwtFullPayload
    rw [getField_setField_other _ _ _ _ (by decide)]
    exact getField_setField_same _ _ _
  refine ⟨?_, hiat, hexp, ?_, ?_, ?_⟩
  · intro now' hfresh
    unfold jwtVerify
    rw [hsplit]
    dsimp only
    rw [if_neg (fun hcon => hcon hsig)]
    rw [hpl]
    dsimp only
    rw [hexp]
    dsimp only
    rw [if_neg ?_]
    rintro ⟨_, hlt⟩
    have : (now : Int) + (e : Int) < (now' : Int) := by omega
    omega
  · intro k hk1 hk2
    unfold jwtFullPayload
    rw [getField_setField_other _ _ _ _ hk2,
      getField_setField_other _ _ _ _ hk1]
  · intro now'' hexpired hpos
    unfold jwtVerify
    rw [hsplit]
    dsimp only
    rw [if_neg (fun hcon => hcon hsig)]
    rw [hpl]
    dsimp only
    rw [hexp]
    dsimp only
    rw [if_pos ?_]
    constructor
    · have : (0 : Int) < (now : Int) + (e : Int) := by exact_mod_cast hpos
      omega
    · omega
  · intro h p sb t hsp hbad
    unfold jwtVerify
    rw [hsp]
    dsimp only
    rw [if_pos hbad]

/-- Decimal digits of a natural number (fuelled, kernel-computable). -/
def digitsAux : Nat → Nat → List Char
  | 0, _ => []
  | fuel + 1, n =>
      if n = 0 then []
      else digitsAux fuel (n / 10) ++ [Char.ofNat (48 + n % 10)]

/-- A simple scalar printer for the demo JSON codec. -/
def demoVal : Json → String
  | .num n =>
      if n = 0 then "0"
      else if n < 0 then "neg" ++ String.mk (digitsAux 20 n.toNat)
      else String.mk (digitsAux 20 n.toNat)
  | .str s => s
  | .bool b => if b then "true" else "false"
  | .null => "null"

/-- A simple dot-free object printer for the demo JSON codec. -/
def demoSer (fields : List (String × Json)) : String :=
  String.intercalate ";" (fields.map (fun p => p.1 ++ ":" ++ demoVal p.2))

/-- The full payload of the C10 counterexample: signing
`{ iat: 5 }` at time 100 with a 10-second expiry overwrites `iat`. -/
def fpBad : List (String × Json) :=
  [("iat", Json.num 100), ("exp", Json.num 110)]

/-- The full payload of the C10 witness. -/
def fpGood : List (String × Json) :=
  [("user", Json.str "admin"), ("iat", Json.num 100), ("exp", Json.num 110)]

/-- Concrete instantiation of the external primitives, adequate at the
values the C10 token uses: the identity "base64", a digit codec for
signature bytes, a shift-by-48 byte/text codec and a length-based
keyed hash. -/
def demoPrims : JwtPrims :=
  { stringifyObj := demoSer
    parseObj := fun s =>
      if s = demoSer fpGood then some fpGood
      else if s = demoSer fpBad then some fpBad
      else none
    b64str := fun s => s
    b64bytes := fun l => String.mk (l.map (fun n => Char.ofNat (48 + n % 10)))
    unb64bytes := fun s => s.data.map (fun c => c.toNat - 48)
    decodeText := fun l => String.mk (l.map (fun n => Char.ofNat (48 + n)))
    hmacSha256 := fun secret msg => [(secret.length + msg.length) % 10] }

instance {α β : Type} [DecidableEq α] [DecidableEq β] :
    DecidableEq (Except α β) := fun x y =>
  match x, y with
  | .error a, .error b =>
      if h : a = b then .isTrue (congrArg Except.error h)
      else .isFalse (fun hc => h (Except.error.inj hc))
  | .ok a, .ok b =>
      if h : a = b then .isTrue (congrArg Except.ok h)
      else .isFalse (fun hc => h (Except.ok.inj hc))
  | .error _, .ok _ => .isFalse (fun hc => Except.noConfusion hc)
  | .ok _, .error _ => .isFalse (fun hc => Except.noConfusion hc)

/-- Counterexample to the claim that the verified payload contains all
fields of the original payload: signing the payload `{ iat: 5 }`
overwrites its `iat` with the issue time, so verification succeeds but
returns a payload that does not contain the original field. -/
theorem jwt_roundtrip_counterexample :
    jwtVerify demoPrims (jwtSign demoPrims [("iat", Json.num 5)] "s" 10 100)
        "s" 100 = .ok fpBad ∧
    getField fpBad "iat" = some (Json.num 100) ∧
    ("iat", Json.num 5) ∉ fpBad ∧
    getField fpBad "iat" ≠ some (Json.num 5) := by decide

/-- Witness for `jwt_roundtrip` with the demo primitives: a token for
`{ user: "admin" }` signed at time 100 with 10 seconds to live verifies
at time 105. -/
theorem jwt_roundtrip_witness :
    jwtVerify demoPrims
        (jwtSign demoPrims [("user", Json.str "admin")] "s" 10 100) "s" 105 =
      .ok (jwtFullPayload [("user", Json.str "admin")] 10 100) :=
  (jwt_roundtrip demoPrims [("user", Json.str "admin")] "s" 10 100
    (by decide) (by decide) (by decide)).1 105 (by decide)
